import Mathlib

/-!
Shallow embedding of `src/main.py` (class `MultiCurrencyTelegramBot`), the
multi-currency Binance/Telegram price-alert bot, together with proofs about
its alert decision engine, source fallback chain, notifier, message
formatters and monitor cycle.

Conventions of the embedding:
* Python floats are modelled as exact rationals (`ℚ`); the arithmetic the
  program performs is translated literally, without floating-point rounding.
* Python dicts are modelled as ordered association lists
  (`List (String × _)`), matching insertion-order iteration; dict assignment
  is `dictSet` (replace in place, else append), dict indexing is
  `dictGet` (raising `KeyError` where the source would).
* Code that can raise returns `Except PyError _`; `ZeroDivisionError`,
  `KeyError` and HTTP errors (`requests` exceptions) are the raisable cases
  the translated code contains.
* Network calls are parameterised by oracles: each bulk source attempt is
  `Option (List (String × ℚ))` (`none` = the request or parse raised, which
  the `for source in sources` loop swallows), per-symbol individual fetches
  are `FetchOutcome`, and Telegram POST outcomes are booleans.
-/

namespace BinanceBot

instance {ε α : Type} [DecidableEq ε] [DecidableEq α] : DecidableEq (Except ε α) := fun a b =>
  match a, b with
  | .error e, .error f =>
    if h : e = f then .isTrue (by rw [h]) else .isFalse (fun hc => h (by injection hc))
  | .ok x, .ok y =>
    if h : x = y then .isTrue (by rw [h]) else .isFalse (fun hc => h (by injection hc))
  | .error _, .ok _ => .isFalse (fun hc => by injection hc)
  | .ok _, .error _ => .isFalse (fun hc => by injection hc)

/-- Python exception kinds that the translated code can raise.
`runtimeError` is the `RuntimeError` that `asyncio.run` raises when called
from a thread whose event loop is already running. -/
inductive PyError where
  | keyError
  | zeroDivisionError
  | httpError
  | runtimeError
deriving DecidableEq, Repr

/-- One entry of `self.currencies` (static asset registry, `main.py` lines 47-88). -/
structure CurrencyConfig where
  name : String
  symbol : String
  coingeckoId : String
  binanceSymbol : String
  emoji : String
  threshold : ℚ
deriving DecidableEq, Repr

/-- `self.currencies`, in insertion order (`main.py` lines 47-88). -/
def currencies : List (String × CurrencyConfig) :=
  [ ("BTC", ⟨"Bitcoin", "BTC", "bitcoin", "BTCUSDT", "🟠", 1⟩),
    ("TRB", ⟨"Tellor", "TRB", "tellor", "TRBUSDT", "🔷", 2⟩),
    ("ARB", ⟨"Arbitrum", "ARB", "arbitrum", "ARBUSDT", "🔵", 2⟩),
    ("ENA", ⟨"Ethena", "ENA", "ethena", "ENAUSDT", "🟢", 3⟩),
    ("ETH", ⟨"Ethereum", "ETH", "ethereum", "ETHUSDT", "🔹", 3/2⟩) ]

/-- Python dict indexing `d[k]` on an ordered dict modelled as an
association list: the binding of `k`, or `none` (= `KeyError` at use sites)
when the key is absent. -/
def dictGet {α : Type} (d : List (String × α)) (k : String) : Option α :=
  match d with
  | [] => none
  | p :: rest => if p.1 = k then some p.2 else dictGet rest k

/-- Dict indexing `self.currencies[symbol]`. -/
def lookupCurrency (sym : String) : Option CurrencyConfig :=
  dictGet currencies sym

/-- A 24h statistics record, the common shape produced by the stats parsers
and by `_get_fallback_stats` (`main.py` lines 276-326). -/
structure Stats where
  priceChange : ℚ
  priceChangePercent : ℚ
  high : ℚ
  low : ℚ
  volume : ℚ
deriving DecidableEq, Repr

/-- `_get_fallback_stats` (`main.py` lines 318-326). -/
def fallbackStats : Stats := ⟨0, 0, 0, 0, 0⟩

/-- The reason component of the decision returned by
`should_send_individual_alert`; the source returns formatted strings, this
inductive keeps the data those strings carry. -/
inductive Reason where
  | initialCheck (sym : String)
  | thresholdExceeded (sym : String) (pct : ℚ)
  | noChange (sym : String)
deriving DecidableEq, Repr

/-- `should_send_individual_alert(self, symbol, current_price)`
(`main.py` lines 411-428), with `self.last_prices` passed explicitly.
`self.currencies[symbol]` and `self.last_prices[symbol]` raise `KeyError`
for an untracked symbol; the division by `self.last_prices[symbol]` raises
`ZeroDivisionError` when the stored previous price is zero. -/
def shouldSendIndividualAlert (lastPrices : List (String × Option ℚ))
    (sym : String) (currentPrice : ℚ) : Except PyError (Bool × Reason) :=
  match lookupCurrency sym with
  | none => .error .keyError
  | some config =>
    match dictGet lastPrices sym with
    | none => .error .keyError
    | some none => .ok (true, .initialCheck sym)
    | some (some prev) =>
      if prev = 0 then .error .zeroDivisionError
      else
        let pct := |(currentPrice - prev) / prev * 100|
        if config.threshold ≤ pct then .ok (true, .thresholdExceeded sym pct)
        else .ok (false, .noChange sym)

/-- `should_send_summary_alert(self)` (`main.py` lines 430-436); the check is
on `self.message_count`, the count of successfully delivered Telegram
messages, not on any cycle counter. -/
def shouldSendSummaryAlert (messageCount : ℕ) : Bool × String :=
  if messageCount % 6 == 0 then (true, "Periodic summary update")
  else (false, "No summary needed")

/-- Outcome of one individual per-symbol CoinGecko request inside
`_get_individual_prices` (`main.py` lines 192-215): `ok` = HTTP request and
parse succeeded and the expected keys were present; `missing` = the request
succeeded but the response lacked the expected keys (the symbol is silently
left out of the result); `err` = the request or JSON decode raised (the
`except` branch stores `None` for the symbol). -/
inductive FetchOutcome where
  | ok (price : ℚ)
  | missing
  | err
deriving DecidableEq, Repr

/-- `_get_individual_prices(self)` (`main.py` lines 187-217): iterates the
configured currencies in registry order; a successful fetch stores the
price, a response without the expected keys stores nothing, and a raised
exception stores `None`. In the real program this coroutine is never
actually executed: its only call site, `asyncio.run(...)` at line 162,
raises before starting it (see `getCryptoPricesBulk`). -/
def getIndividualPrices (fetch : String → FetchOutcome) : List (String × Option ℚ) :=
  currencies.foldl (fun prices p =>
    match fetch p.1 with
    | .ok q => prices ++ [(p.1, some q)]
    | .missing => prices
    | .err => prices ++ [(p.1, none)]) []

/-- `get_crypto_prices_bulk(self)` (`main.py` lines 102-162): tries the bulk
sources in configured order; a source whose request/parse raised (`none`) or
whose parsed dict is empty (falsy) is skipped; the first non-empty parsed
dict is returned in full. If every bulk source is exhausted, line 162 calls
`asyncio.run(self._get_individual_prices())` — but this method only ever
runs inside the coroutine `monitor_prices`, itself driven by the running
event loop of `asyncio.run(bot.run_bot())` (line 539), and `asyncio.run`
called from a thread with a running event loop raises `RuntimeError`
without starting the coroutine. So the exhausted-sources branch raises.
The `fetch` oracle is the per-symbol outcome `_get_individual_prices`
would observe; it goes unused precisely because that coroutine never runs.
The source list generalises the two configured bulk sources (CoinGecko
Bulk, CryptoCompare Bulk). -/
def getCryptoPricesBulk (bulkResults : List (Option (List (String × ℚ))))
    (fetch : String → FetchOutcome) : Except PyError (List (String × Option ℚ)) :=
  match bulkResults with
  | [] => .error .runtimeError
  | none :: rest => getCryptoPricesBulk rest fetch
  | some d :: rest =>
    if d.isEmpty then getCryptoPricesBulk rest fetch
    else .ok (d.map (fun p => (p.1, some p.2)))

/-- `get_24h_stats_bulk(self)` (`main.py` lines 219-274): same fallback
pattern over the two bulk stats sources; when every source fails it returns
the zero-valued `_get_fallback_stats()` for every configured symbol. -/
def get24hStatsBulk (statsResults : List (Option (List (String × Stats)))) :
    List (String × Stats) :=
  match statsResults with
  | [] => currencies.map (fun p => (p.1, fallbackStats))
  | none :: rest => get24hStatsBulk rest
  | some d :: rest => if d.isEmpty then get24hStatsBulk rest else d

/-- The body of the `try` in `send_telegram_message(self, message)`
(`main.py` lines 330-348): missing credentials return `False` early; a
failed POST (`raise_for_status`) raises; a successful POST increments
`self.message_count` and returns `True`. -/
def sendTelegramBody (tokenSet chatSet postOk : Bool) (messageCount : ℕ) :
    Except PyError (Bool × ℕ) :=
  if !tokenSet || !chatSet then .ok (false, messageCount)
  else if postOk then .ok (true, messageCount + 1)
  else .error .httpError

/-- `send_telegram_message(self, message)` (`main.py` lines 328-352): the
whole body is wrapped in `try/except`, so any raised error is swallowed and
reported as `False` with `self.message_count` untouched. Returns
(returned boolean, resulting `message_count`). -/
def sendTelegramMessage (tokenSet chatSet postOk : Bool) (messageCount : ℕ) :
    Bool × ℕ :=
  match sendTelegramBody tokenSet chatSet postOk messageCount with
  | .ok r => r
  | .error _ => (false, messageCount)

/-- Claim C1: with a recorded, positive previous price, the individual alert
decision is "alert" with a threshold-exceeded reason exactly when
`|current - previous| / previous * 100` is at least the asset's configured
threshold (covering both rises and drops, since the magnitude is taken), and
"no alert" when the change is strictly below the threshold. -/
theorem individual_alert_threshold_decision
    (sym : String) (config : CurrencyConfig) (lastPrices : List (String × Option ℚ))
    (prev currentPrice : ℚ)
    (hcfg : lookupCurrency sym = some config)
    (hprev : dictGet lastPrices sym = some (some prev))
    (hpos : 0 < prev) :
    shouldSendIndividualAlert lastPrices sym currentPrice =
      if config.threshold ≤ |currentPrice - prev| / prev * 100 then
        .ok (true, .thresholdExceeded sym (|currentPrice - prev| / prev * 100))
      else .ok (false, .noChange sym) := by
  have habs : |(currentPrice - prev) / prev * 100| = |currentPrice - prev| / prev * 100 := by
    rw [abs_mul, abs_div, abs_of_pos hpos]
    norm_num
  simp only [shouldSendIndividualAlert, hcfg, hprev, if_neg (ne_of_gt hpos), habs]

/-- Witness for C1: the spec's example scenario, previous price 50000,
current price 50600, BTC threshold 1% → 1.2% change → alert. -/
theorem individual_alert_threshold_decision_witness :
    shouldSendIndividualAlert [("BTC", some 50000)] "BTC" 50600 =
      .ok (true, .thresholdExceeded "BTC" (|(50600 : ℚ) - 50000| / 50000 * 100)) := by
  rw [individual_alert_threshold_decision "BTC"
      ⟨"Bitcoin", "BTC", "bitcoin", "BTCUSDT", "🟠", 1⟩
      [("BTC", some 50000)] 50000 50600 rfl rfl (by norm_num)]
  rw [if_pos (by norm_num)]

/-- Claim C2: evaluating the code at a recorded previous price of exactly
zero. The source computes
`(current_price - self.last_prices[symbol]) / self.last_prices[symbol]`
with no zero guard, so the stored zero IS used as a division denominator and
the call raises `ZeroDivisionError` instead of treating the case as an
initial check: the claim describes the spec's required behavior, which the
code does not implement. -/
theorem zero_previous_price_division_fault :
    shouldSendIndividualAlert [("BTC", some 0)] "BTC" 100 =
      .error .zeroDivisionError := by
  rfl

/-- Claim C6: for an asset whose recorded previous price is `None`, the
individual alert decision is "alert" with the initial-check reason, whatever
the current price is. -/
theorem initial_check_always_alerts
    (sym : String) (config : CurrencyConfig) (lastPrices : List (String × Option ℚ))
    (currentPrice : ℚ)
    (hcfg : lookupCurrency sym = some config)
    (hprev : dictGet lastPrices sym = some none) :
    shouldSendIndividualAlert lastPrices sym currentPrice =
      .ok (true, .initialCheck sym) := by
  simp only [shouldSendIndividualAlert, hcfg, hprev]

/-- Witness for C6: the freshly initialised `last_prices` maps ETH to `None`,
so the first fetched ETH price always alerts. -/
theorem initial_check_always_alerts_witness :
    shouldSendIndividualAlert [("BTC", some 50000), ("ETH", none)] "ETH" 2345 =
      .ok (true, .initialCheck "ETH") := by
  exact initial_check_always_alerts "ETH"
    ⟨"Ethereum", "ETH", "ethereum", "ETHUSDT", "🔹", 3/2⟩
    [("BTC", some 50000), ("ETH", none)] 2345 rfl rfl

/-- Claim C5: the bulk fetch consumes its sources in configured order; when
the first source fails (its request/parse raised, or its parsed dict was
empty) and the second source yields a non-empty parsed dict `d`, the call
returns normally and the whole returned mapping is exactly `d` (injected
into the optional-price shape), independent of any later sources and of the
individual-fetch fallback — so no merging happens and nothing after the
success is consulted. -/
theorem bulk_fetch_first_success
    (firstSource : Option (List (String × ℚ)))
    (hfail : firstSource = none ∨ firstSource = some [])
    (d : List (String × ℚ)) (hd : ¬d.isEmpty)
    (laterSources : List (Option (List (String × ℚ))))
    (fetch : String → FetchOutcome) :
    getCryptoPricesBulk (firstSource :: some d :: laterSources) fetch =
      .ok (d.map (fun p => (p.1, some p.2))) := by
  rcases hfail with h | h <;> subst h <;>
    simp [getCryptoPricesBulk, hd]

/-- Witness for C5: first source raises, second source returns BTC and ETH
prices; the result is exactly the second source's parse, with a third
source present but never consulted. -/
theorem bulk_fetch_first_success_witness :
    getCryptoPricesBulk
      [none, some [("BTC", 50000), ("ETH", 2345)], some [("BTC", 1)]]
      (fun _ => .err) =
      .ok [("BTC", some 50000), ("ETH", some 2345)] := by
  exact bulk_fetch_first_success none (Or.inl rfl)
    [("BTC", 50000), ("ETH", 2345)] (by simp)
    [some [("BTC", 1)]] (fun _ => .err)

/-- Claim C8: `send_telegram_message` never raises (it is a total function
here because the `try/except` swallows every error); it returns `False` and
leaves `message_count` unchanged on missing credentials or a failed POST,
and returns `True` with `message_count` incremented by exactly one only on
a confirmed successful delivery; the count never decreases. -/
theorem send_telegram_contract (tokenSet chatSet postOk : Bool) (messageCount : ℕ) :
    messageCount ≤ (sendTelegramMessage tokenSet chatSet postOk messageCount).2 ∧
    (sendTelegramMessage tokenSet chatSet postOk messageCount).1 =
      (tokenSet && chatSet && postOk) ∧
    (sendTelegramMessage tokenSet chatSet postOk messageCount).2 =
      (if (sendTelegramMessage tokenSet chatSet postOk messageCount).1
       then messageCount + 1 else messageCount) := by
  cases tokenSet <;> cases chatSet <;> cases postOk <;>
    simp [sendTelegramMessage, sendTelegramBody]

/-- Python dict assignment `d[k] = v` on an ordered dict modelled as an
association list: an existing binding is replaced in place (insertion order
preserved), a new key is appended at the end. -/
def dictSet {α : Type} (d : List (String × α)) (k : String) (v : α) :
    List (String × α) :=
  if d.any (fun p => p.1 = k) then
    d.map (fun p => if p.1 = k then (k, v) else p)
  else d ++ [(k, v)]

theorem dictGet_append {α : Type} (d e : List (String × α)) (k : String) :
    dictGet (d ++ e) k = ((dictGet d k).orElse (fun _ => dictGet e k)) := by
  induction d with
  | nil => simp [dictGet, Option.orElse]
  | cons p rest ih =>
    by_cases h : p.1 = k
    · simp [dictGet, h, Option.orElse]
    · simp [dictGet, h, ih]

theorem dictGet_map_set_self {α : Type} (d : List (String × α)) (k : String) (v : α)
    (hany : d.any (fun p => decide (p.1 = k)) = true) :
    dictGet (d.map (fun p => if p.1 = k then (k, v) else p)) k = some v := by
  induction d with
  | nil => simp at hany
  | cons p rest ih =>
    by_cases h : p.1 = k
    · simp [dictGet, h]
    · simp only [List.any_cons, decide_eq_true_eq, Bool.or_eq_true] at hany
      have hrest := hany.resolve_left h
      simp only [List.map_cons, dictGet, if_neg h, if_neg h]
      exact ih (by simpa using hrest)

theorem dictGet_map_set_ne {α : Type} (d : List (String × α)) (k k' : String) (v : α)
    (hne : k' ≠ k) :
    dictGet (d.map (fun p => if p.1 = k then (k, v) else p)) k' = dictGet d k' := by
  have hkk : k ≠ k' := fun hc => hne hc.symm
  induction d with
  | nil => rfl
  | cons p rest ih =>
    by_cases h : p.1 = k
    · have hp : p.1 ≠ k' := by rw [h]; exact hkk
      simp only [List.map_cons, if_pos h, dictGet, if_neg hkk, if_neg hp]
      exact ih
    · simp only [List.map_cons, if_neg h, dictGet]
      by_cases hk' : p.1 = k'
      · simp [hk']
      · simp only [if_neg hk']
        exact ih

theorem dictGet_none_of_not_any {α : Type} (d : List (String × α)) (k : String)
    (hany : d.any (fun p => decide (p.1 = k)) = false) :
    dictGet d k = none := by
  induction d with
  | nil => rfl
  | cons p rest ih =>
    simp only [List.any_cons, Bool.or_eq_false_iff, decide_eq_false_iff_not] at hany
    simp only [dictGet, if_neg hany.1]
    exact ih (by simpa using hany.2)

theorem dictGet_dictSet_self {α : Type} (d : List (String × α)) (k : String) (v : α) :
    dictGet (dictSet d k v) k = some v := by
  unfold dictSet
  by_cases hany : d.any (fun p => decide (p.1 = k)) = true
  · rw [if_pos hany]
    exact dictGet_map_set_self d k v hany
  · rw [if_neg hany, dictGet_append,
      dictGet_none_of_not_any d k (Bool.not_eq_true _ ▸ hany)]
    simp [dictGet, Option.orElse]

theorem dictGet_dictSet_ne {α : Type} (d : List (String × α)) (k k' : String) (v : α)
    (hne : k' ≠ k) :
    dictGet (dictSet d k v) k' = dictGet d k' := by
  unfold dictSet
  by_cases hany : d.any (fun p => decide (p.1 = k)) = true
  · rw [if_pos hany]
    exact dictGet_map_set_ne d k k' v hne
  · rw [if_neg hany, dictGet_append]
    have hsingle : dictGet ([(k, v)] : List (String × α)) k' = none := by
      have hkk : k ≠ k' := fun hc => hne hc.symm
      simp [dictGet, hkk]
    rw [hsingle]
    cases dictGet d k' <;> simp [Option.orElse]

/-- Mutable bot state owned by the monitor loop (`__init__`,
`main.py` lines 91-98): `last_prices` (initialised to `None` per symbol),
`message_count`, and the per-symbol `price_alerts_sent` counters. -/
structure BotState where
  lastPrices : List (String × Option ℚ)
  messageCount : ℕ
  priceAlertsSent : List (String × ℕ)
deriving DecidableEq, Repr

/-- The state right after `__init__` (`main.py` lines 91-98). -/
def initialState : BotState :=
  ⟨currencies.map (fun p => (p.1, none)), 0, currencies.map (fun p => (p.1, 0))⟩

/-- Observable record of one `monitor_prices` cycle: the fetched price dict,
the individual alerts collected (symbol, price, reason) in dict order,
whether the summary branch sent, and whether the cycle returned early
because no prices were fetched. -/
structure CycleLog where
  fetchedPrices : List (String × Option ℚ)
  individualAlerts : List (String × ℚ × Reason)
  summarySent : Bool
  skipped : Bool
deriving DecidableEq, Repr

/-- The alert-collection loop of `monitor_prices` (`main.py` lines 450-458):
iterates the fetched dict in order, skips `None` prices, and appends
`(symbol, price, reason)` whenever `should_send_individual_alert` says to
alert; an exception from the decision function propagates. -/
def collectAlerts (lastPrices : List (String × Option ℚ)) :
    List (String × Option ℚ) → Except PyError (List (String × ℚ × Reason))
  | [] => .ok []
  | (_, none) :: rest => collectAlerts lastPrices rest
  | (sym, some price) :: rest =>
    match shouldSendIndividualAlert lastPrices sym price with
    | .error e => .error e
    | .ok (shouldAlert, reason) =>
      match collectAlerts lastPrices rest with
      | .error e => .error e
      | .ok alerts =>
        .ok (if shouldAlert then (sym, price, reason) :: alerts else alerts)

/-- The alert-sending loop of `monitor_prices` (`main.py` lines 460-469):
for each collected alert, the formatted message is sent (the boolean result
is discarded; a successful delivery increments `message_count` inside
`send_telegram_message`) and then `price_alerts_sent[symbol] += 1` runs
unconditionally (raising `KeyError` for an untracked symbol). `k` indexes
the Telegram POST attempts of this cycle into the `postOk` oracle. Returns
(next send index, message_count, price_alerts_sent). -/
def sendAlerts (tokenSet chatSet : Bool) (postOk : ℕ → Bool) :
    ℕ → ℕ → List (String × ℕ) → List (String × ℚ × Reason) →
    Except PyError (ℕ × ℕ × List (String × ℕ))
  | k, mc, pas, [] => .ok (k, mc, pas)
  | k, mc, pas, (sym, _, _) :: rest =>
    let mc' := (sendTelegramMessage tokenSet chatSet (postOk k) mc).2
    match dictGet pas sym with
    | none => .error .keyError
    | some n => sendAlerts tokenSet chatSet postOk (k + 1) mc' (dictSet pas sym (n + 1)) rest

/-- The last-price update loop at the end of `monitor_prices`
(`main.py` lines 478-481): `last_prices[symbol] = price` for every fetched
entry whose price is not `None`; `None` entries are left alone. -/
def updateLastPrices (lp cur : List (String × Option ℚ)) :
    List (String × Option ℚ) :=
  cur.foldl (fun lp p =>
    match p.2 with
    | some q => dictSet lp p.1 (some q)
    | none => lp) lp

/-- The `try` body of `monitor_prices(self)` (`main.py` lines 440-481):
fetch prices (a `RuntimeError` raised by the fetch's exhausted-sources
branch propagates; an empty dict returns early), fetch 24h stats (their
content does not influence any decision, only message text), collect and
send individual alerts, send the summary only when `should_send_summary_alert`
fires and no individual alert was collected, then overwrite `last_prices`
for exactly the symbols whose fetched price is not `None`. Message
formatting is not re-modelled here: for the symbols this loop can reach it
cannot raise, and its output does not feed any decision (the formatters are
embedded separately below). An escaping exception is the `.error` case,
which the caller's `except` turns into a best-effort error notification. -/
def monitorPricesCore (st : BotState)
    (bulkResults : List (Option (List (String × ℚ))))
    (fetch : String → FetchOutcome)
    (statsResults : List (Option (List (String × Stats))))
    (tokenSet chatSet : Bool) (postOk : ℕ → Bool) :
    Except PyError (BotState × CycleLog) :=
  match getCryptoPricesBulk bulkResults fetch with
  | .error e => .error e
  | .ok currentPrices =>
    if currentPrices.isEmpty then
      .ok (st, ⟨currentPrices, [], false, true⟩)
    else
      let _stats := get24hStatsBulk statsResults
      match collectAlerts st.lastPrices currentPrices with
      | .error e => .error e
      | .ok alerts =>
        match sendAlerts tokenSet chatSet postOk 0 st.messageCount st.priceAlertsSent alerts with
        | .error e => .error e
        | .ok (k, mc1, pas1) =>
          let summarySent := (shouldSendSummaryAlert mc1).1 && alerts.isEmpty
          let mc2 := if summarySent then (sendTelegramMessage tokenSet chatSet (postOk k) mc1).2 else mc1
          .ok (⟨updateLastPrices st.lastPrices currentPrices, mc2, pas1⟩,
            ⟨currentPrices, alerts, summarySent, false⟩)

theorem dictGet_not_mem {α : Type} (d : List (String × α)) (k : String)
    (h : k ∉ d.map Prod.fst) : dictGet d k = none := by
  induction d with
  | nil => rfl
  | cons p rest ih =>
    simp only [List.map_cons, List.mem_cons, not_or] at h
    simp only [dictGet, if_neg (fun hc : p.1 = k => h.1 hc.symm)]
    exact ih h.2

theorem dictGet_updateLastPrices (lp cur : List (String × Option ℚ))
    (hnd : (cur.map Prod.fst).Nodup) (sym : String) :
    dictGet (updateLastPrices lp cur) sym =
      match dictGet cur sym with
      | some (some q) => some (some q)
      | _ => dictGet lp sym := by
  induction cur generalizing lp with
  | nil => rfl
  | cons p rest ih =>
    obtain ⟨s, q⟩ := p
    simp only [List.map_cons, List.nodup_cons] at hnd
    cases q with
    | none =>
      have hstep : updateLastPrices lp ((s, none) :: rest) = updateLastPrices lp rest := rfl
      rw [hstep, ih lp hnd.2]
      by_cases hs : s = sym
      · subst hs
        rw [dictGet_not_mem rest s hnd.1]
        simp [dictGet]
      · simp [dictGet, hs]
    | some q =>
      have hstep : updateLastPrices lp ((s, some q) :: rest) =
          updateLastPrices (dictSet lp s (some q)) rest := rfl
      rw [hstep, ih _ hnd.2]
      by_cases hs : s = sym
      · subst hs
        rw [dictGet_not_mem rest s hnd.1, dictGet_dictSet_self]
        simp [dictGet]
      · rw [dictGet_dictSet_ne lp s sym (some q) (fun hc => hs hc.symm)]
        simp [dictGet, hs]

theorem sendAlerts_pas_count (tokenSet chatSet : Bool) (postOk : ℕ → Bool)
    (alerts : List (String × ℚ × Reason)) :
    ∀ (k mc : ℕ) (pas : List (String × ℕ)) (k' mc' : ℕ) (pas' : List (String × ℕ)),
      sendAlerts tokenSet chatSet postOk k mc pas alerts = .ok (k', mc', pas') →
      ∀ (sym : String) (n : ℕ), dictGet pas sym = some n →
        dictGet pas' sym =
          some (n + (alerts.filter (fun a => decide (a.1 = sym))).length) := by
  induction alerts with
  | nil =>
    intro k mc pas k' mc' pas' h sym n hn
    injection h with h'
    obtain ⟨-, -, h3⟩ : k = k' ∧ mc = mc' ∧ pas = pas' := by
      refine ⟨?_, ?_, ?_⟩ <;> [exact congrArg Prod.fst h';
        exact congrArg (fun r => r.2.1) h'; exact congrArg (fun r => r.2.2) h']
    subst h3
    simpa using hn
  | cons a rest ih =>
    intro k mc pas k' mc' pas' h sym n hn
    obtain ⟨s, price, reason⟩ := a
    simp only [sendAlerts] at h
    cases hm : dictGet pas s with
    | none => rw [hm] at h; exact Except.noConfusion h
    | some m =>
      rw [hm] at h
      by_cases hs : s = sym
      · subst hs
        have hmn : m = n := by rw [hm] at hn; injection hn
        subst hmn
        have hrec := ih _ _ _ _ _ _ h s (m + 1) (dictGet_dictSet_self pas s (m + 1))
        rw [hrec]
        have hfil : ((s, price, reason) :: rest).filter (fun a => decide (a.1 = s)) =
            (s, price, reason) :: rest.filter (fun a => decide (a.1 = s)) := by
          simp [List.filter]
        rw [hfil]
        simp only [List.length_cons]
        congr 1
        omega
      · have hpas1 : dictGet (dictSet pas s (m + 1)) sym = dictGet pas sym :=
          dictGet_dictSet_ne pas s sym (m + 1) (fun hc => hs hc.symm)
        have hrec := ih _ _ _ _ _ _ h sym n (hpas1.trans hn)
        rw [hrec]
        have hfil : ((s, price, reason) :: rest).filter (fun a => decide (a.1 = sym)) =
            rest.filter (fun a => decide (a.1 = sym)) := by
          simp [List.filter, hs]
        rw [hfil]

theorem shouldSendSummaryAlert_fst (mc : ℕ) :
    (shouldSendSummaryAlert mc).1 = (mc % 6 == 0) := by
  unfold shouldSendSummaryAlert
  by_cases h : mc % 6 == 0 <;> simp [h]

/-- Claim C7: for every monitor cycle that runs to completion, an asset
whose fetched price this cycle is usable (present and not `None`) has its
`last_prices` entry overwritten with exactly that price, and every other
asset's `last_prices` entry is left unchanged — in particular no entry is
ever overwritten with an empty value. (The fetched dict has unique keys,
as every Python dict does.) -/
theorem last_prices_update_frame
    (st : BotState) (bulkResults : List (Option (List (String × ℚ))))
    (fetch : String → FetchOutcome) (statsResults : List (Option (List (String × Stats))))
    (tokenSet chatSet : Bool) (postOk : ℕ → Bool) (st' : BotState) (log : CycleLog)
    (cur : List (String × Option ℚ))
    (hfetch : getCryptoPricesBulk bulkResults fetch = .ok cur)
    (hnd : (cur.map Prod.fst).Nodup)
    (h : monitorPricesCore st bulkResults fetch statsResults tokenSet chatSet postOk =
      .ok (st', log)) (sym : String) :
    dictGet st'.lastPrices sym =
      match dictGet cur sym with
      | some (some q) => some (some q)
      | _ => dictGet st.lastPrices sym := by
  simp only [monitorPricesCore, hfetch] at h
  split at h
  · next hempty =>
    injection h with h'
    have hst : st = st' := congrArg Prod.fst h'
    subst hst
    have hcurnil : cur = [] := by
      simpa [List.isEmpty_iff] using hempty
    rw [hcurnil]
    rfl
  · next hempty =>
    split at h
    · exact Except.noConfusion h
    · next alerts hcollect =>
      split at h
      · exact Except.noConfusion h
      · next k mc1 pas1 hsend =>
        injection h with h'
        have hst : (⟨updateLastPrices st.lastPrices cur,
            if (shouldSendSummaryAlert mc1).1 && alerts.isEmpty then
              (sendTelegramMessage tokenSet chatSet (postOk k) mc1).2 else mc1,
            pas1⟩ : BotState) = st' := congrArg Prod.fst h'
        rw [← hst]
        exact dictGet_updateLastPrices st.lastPrices cur hnd sym

/-- Witness for C7: one concrete completed cycle from the freshly
initialised state in which only BTC gets a price: BTC's entry is
overwritten with the fetched price and every other entry keeps its previous
value. -/
theorem last_prices_update_frame_witness :
    dictGet (BotState.mk
      [("BTC", some 100), ("TRB", none), ("ARB", none), ("ENA", none), ("ETH", none)] 1
      [("BTC", 1), ("TRB", 0), ("ARB", 0), ("ENA", 0), ("ETH", 0)]).lastPrices "BTC" =
      (match dictGet [("BTC", some (100 : ℚ))] "BTC" with
       | some (some q) => some (some q)
       | _ => dictGet initialState.lastPrices "BTC") := by
  exact last_prices_update_frame initialState [some [("BTC", 100)]] (fun _ => .err) []
    true true (fun _ => true)
    (BotState.mk
      [("BTC", some 100), ("TRB", none), ("ARB", none), ("ENA", none), ("ETH", none)] 1
      [("BTC", 1), ("TRB", 0), ("ARB", 0), ("ENA", 0), ("ETH", 0)])
    (CycleLog.mk [("BTC", some 100)] [("BTC", 100, .initialCheck "BTC")] false false)
    [("BTC", some 100)] rfl (by decide) rfl "BTC"

/-- Claim C10: for every monitor cycle that runs to completion, each
asset's `price_alerts_sent` counter grows by exactly the number of
individual alerts the decision engine fired for that asset this cycle (one
per fired alert), whatever the Telegram delivery oracle `postOk` and the
credential flags say — delivery failures do not suppress the increment,
unlike `message_count`, which only counts confirmed deliveries. -/
theorem alert_counter_increment
    (st : BotState) (bulkResults : List (Option (List (String × ℚ))))
    (fetch : String → FetchOutcome) (statsResults : List (Option (List (String × Stats))))
    (tokenSet chatSet : Bool) (postOk : ℕ → Bool) (st' : BotState) (log : CycleLog)
    (h : monitorPricesCore st bulkResults fetch statsResults tokenSet chatSet postOk =
      .ok (st', log)) (sym : String) (n : ℕ)
    (hn : dictGet st.priceAlertsSent sym = some n) :
    dictGet st'.priceAlertsSent sym =
      some (n + (log.individualAlerts.filter (fun a => decide (a.1 = sym))).length) := by
  simp only [monitorPricesCore] at h
  split at h
  · exact Except.noConfusion h
  · next cur hfetch =>
    split at h
    · injection h with h'
      have hst : st = st' := congrArg Prod.fst h'
      have hlog : (⟨cur, [], false, true⟩ : CycleLog) = log :=
        congrArg Prod.snd h'
      subst hst
      rw [← hlog]
      simpa using hn
    · split at h
      · exact Except.noConfusion h
      · next alerts hcollect =>
        split at h
        · exact Except.noConfusion h
        · next k mc1 pas1 hsend =>
          injection h with h'
          have hst : (⟨updateLastPrices st.lastPrices cur,
              if (shouldSendSummaryAlert mc1).1 && alerts.isEmpty then
                (sendTelegramMessage tokenSet chatSet (postOk k) mc1).2 else mc1,
              pas1⟩ : BotState) = st' := congrArg Prod.fst h'
          have hlog : (⟨cur, alerts,
              (shouldSendSummaryAlert mc1).1 && alerts.isEmpty, false⟩ : CycleLog) = log :=
            congrArg Prod.snd h'
          rw [← hst, ← hlog]
          exact sendAlerts_pas_count tokenSet chatSet postOk alerts _ _ _ _ _ _ hsend sym n hn

/-- Witness for C10: the concrete cycle of the C7 witness fires exactly one
BTC alert (delivery succeeding), and BTC's counter goes from 0 to 1. -/
theorem alert_counter_increment_witness :
    dictGet (BotState.mk
      [("BTC", some 100), ("TRB", none), ("ARB", none), ("ENA", none), ("ETH", none)] 1
      [("BTC", 1), ("TRB", 0), ("ARB", 0), ("ENA", 0), ("ETH", 0)]).priceAlertsSent "BTC" =
      some (0 + (((CycleLog.mk [("BTC", some 100)] [("BTC", 100, .initialCheck "BTC")]
        false false).individualAlerts.filter (fun a => decide (a.1 = "BTC"))).length)) := by
  exact alert_counter_increment initialState [some [("BTC", 100)]] (fun _ => .err) []
    true true (fun _ => true)
    (BotState.mk
      [("BTC", some 100), ("TRB", none), ("ARB", none), ("ENA", none), ("ETH", none)] 1
      [("BTC", 1), ("TRB", 0), ("ARB", 0), ("ENA", 0), ("ETH", 0)])
    (CycleLog.mk [("BTC", some 100)] [("BTC", 100, .initialCheck "BTC")] false false)
    rfl "BTC" 0 rfl

/-- Amended claim C3: the summary decision consults `message_count` (the
count of successfully delivered Telegram messages), not a cycle counter: in
every completed cycle the summary is sent exactly when prices were fetched,
no individual alert fired, and `message_count` entering the cycle is
divisible by 6. Individual alerts do suppress the summary, as claimed. -/
theorem summary_decision_message_count
    (st : BotState) (bulkResults : List (Option (List (String × ℚ))))
    (fetch : String → FetchOutcome) (statsResults : List (Option (List (String × Stats))))
    (tokenSet chatSet : Bool) (postOk : ℕ → Bool) (st' : BotState) (log : CycleLog)
    (h : monitorPricesCore st bulkResults fetch statsResults tokenSet chatSet postOk =
      .ok (st', log)) :
    log.summarySent = true ↔
      (log.skipped = false ∧ log.individualAlerts = [] ∧ st.messageCount % 6 = 0) := by
  simp only [monitorPricesCore] at h
  split at h
  · exact Except.noConfusion h
  · next cur hfetch =>
    split at h
    · injection h with h'
      have hlog : (⟨cur, [], false, true⟩ : CycleLog) = log :=
        congrArg Prod.snd h'
      rw [← hlog]
      simp
    · split at h
      · exact Except.noConfusion h
      · next alerts hcollect =>
        split at h
        · exact Except.noConfusion h
        · next k mc1 pas1 hsend =>
          injection h with h'
          have hlog : (⟨cur, alerts,
              (shouldSendSummaryAlert mc1).1 && alerts.isEmpty, false⟩ : CycleLog) = log :=
            congrArg Prod.snd h'
          rw [← hlog]
          simp only [shouldSendSummaryAlert_fst, Bool.and_eq_true, List.isEmpty_iff,
            beq_iff_eq, true_and]
          constructor
          · rintro ⟨hmc, halerts⟩
            subst halerts
            have h0 : Except.ok (ε := PyError) ((0 : ℕ), st.messageCount, st.priceAlertsSent) =
                .ok (k, mc1, pas1) := hsend
            injection h0 with h2
            have hmc' : st.messageCount = mc1 := congrArg (fun r => r.2.1) h2
            refine ⟨rfl, ?_⟩
            rw [hmc']
            exact hmc
          · rintro ⟨halerts, hmc⟩
            subst halerts
            have h0 : Except.ok (ε := PyError) ((0 : ℕ), st.messageCount, st.priceAlertsSent) =
                .ok (k, mc1, pas1) := hsend
            injection h0 with h2
            have hmc' : st.messageCount = mc1 := congrArg (fun r => r.2.1) h2
            refine ⟨?_, rfl⟩
            rw [← hmc']
            exact hmc

/-- Witness for C3's amended claim: a completed bulk-success cycle from a
state with `message_count = 6` and no recorded BTC price: the BTC
initial-check alert fires, so even though the count is divisible by 6 as
the cycle starts, the summary is suppressed — both sides of the
biconditional are false. -/
theorem summary_decision_message_count_witness :
    (CycleLog.mk [("BTC", some 100)] [("BTC", 100, .initialCheck "BTC")]
        false false).summarySent = true ↔
      ((CycleLog.mk [("BTC", some 100)] [("BTC", 100, .initialCheck "BTC")]
        false false).skipped = false ∧
       (CycleLog.mk [("BTC", some 100)] [("BTC", 100, .initialCheck "BTC")]
        false false).individualAlerts = [] ∧
       (BotState.mk [("BTC", none), ("TRB", none), ("ARB", none), ("ENA", none), ("ETH", none)]
         6 [("BTC", 0), ("TRB", 0), ("ARB", 0), ("ENA", 0), ("ETH", 0)]).messageCount % 6
         = 0) := by
  exact summary_decision_message_count
    (BotState.mk [("BTC", none), ("TRB", none), ("ARB", none), ("ENA", none), ("ETH", none)]
      6 [("BTC", 0), ("TRB", 0), ("ARB", 0), ("ENA", 0), ("ETH", 0)])
    [some [("BTC", 100)]] (fun _ => .err) [] true true (fun _ => true)
    (BotState.mk
      [("BTC", some 100), ("TRB", none), ("ARB", none), ("ENA", none), ("ETH", none)] 7
      [("BTC", 1), ("TRB", 0), ("ARB", 0), ("ENA", 0), ("ETH", 0)])
    (CycleLog.mk [("BTC", some 100)] [("BTC", 100, .initialCheck "BTC")] false false)
    rfl

/-- Counterexample to claim C3 as stated: a concrete two-cycle run. The
process starts fresh (startup message delivered, so `message_count = 1`),
every cycle fetches the same five prices. In cycle 1 all five initial-check
alerts fire (five successful sends bring `message_count` to 6) and the
summary is suppressed; in cycle 2 — the second cycle, not a sixth — no
alert fires, `message_count % 6 = 0`, and the summary IS sent. So the
summary is not sent "on every 6th cycle and only then". -/
theorem summary_not_cycle_based_counterexample :
    ((monitorPricesCore
        (BotState.mk (currencies.map (fun p => (p.1, none))) 1
          (currencies.map (fun p => (p.1, 0))))
        [some [("BTC", 100), ("TRB", 50), ("ARB", 1), ("ENA", 2), ("ETH", 2000)], none]
        (fun _ => .err) [none, none] true true (fun _ => true)).bind
      (fun r1 => (monitorPricesCore r1.1
        [some [("BTC", 100), ("TRB", 50), ("ARB", 1), ("ENA", 2), ("ETH", 2000)], none]
        (fun _ => .err) [none, none] true true (fun _ => true)).map
      (fun r2 => (r1.2.summarySent, r2.2.summarySent)))) = .ok (false, true) := by
  have h1 : monitorPricesCore
      (BotState.mk (currencies.map (fun p => (p.1, none))) 1
        (currencies.map (fun p => (p.1, 0))))
      [some [("BTC", 100), ("TRB", 50), ("ARB", 1), ("ENA", 2), ("ETH", 2000)], none]
      (fun _ => .err) [none, none] true true (fun _ => true) =
      .ok (BotState.mk
        [("BTC", some 100), ("TRB", some 50), ("ARB", some 1), ("ENA", some 2),
          ("ETH", some 2000)] 6
        [("BTC", 1), ("TRB", 1), ("ARB", 1), ("ENA", 1), ("ETH", 1)],
        CycleLog.mk
          [("BTC", some 100), ("TRB", some 50), ("ARB", some 1), ("ENA", some 2),
            ("ETH", some 2000)]
          [("BTC", 100, .initialCheck "BTC"), ("TRB", 50, .initialCheck "TRB"),
            ("ARB", 1, .initialCheck "ARB"), ("ENA", 2, .initialCheck "ENA"),
            ("ETH", 2000, .initialCheck "ETH")]
          false false) := rfl
  rw [h1]
  show (monitorPricesCore (BotState.mk
      [("BTC", some 100), ("TRB", some 50), ("ARB", some 1), ("ENA", some 2),
        ("ETH", some 2000)] 6
      [("BTC", 1), ("TRB", 1), ("ARB", 1), ("ENA", 1), ("ETH", 1)])
      [some [("BTC", 100), ("TRB", 50), ("ARB", 1), ("ENA", 2), ("ETH", 2000)], none]
      (fun _ => .err) [none, none] true true (fun _ => true)).map
      (fun r2 => (false, r2.2.summarySent)) = .ok (false, true)
  have hcur : getCryptoPricesBulk
      [some [("BTC", 100), ("TRB", 50), ("ARB", 1), ("ENA", 2), ("ETH", 2000)], none]
      (fun _ => .err) =
      .ok [("BTC", some 100), ("TRB", some 50), ("ARB", some 1), ("ENA", some 2),
        ("ETH", some 2000)] := rfl
  have halerts : collectAlerts
      [("BTC", some 100), ("TRB", some 50), ("ARB", some 1), ("ENA", some 2),
        ("ETH", some 2000)]
      [("BTC", some 100), ("TRB", some 50), ("ARB", some 1), ("ENA", some 2),
        ("ETH", some 2000)] = .ok [] := by
    simp [collectAlerts, shouldSendIndividualAlert, lookupCurrency, currencies, dictGet]
    norm_num
  simp only [monitorPricesCore, hcur, List.isEmpty_cons, Bool.false_eq_true, if_false, halerts]
  rfl

/-- Amended claim C4: when every bulk price source fails (its request/parse
raises, or its parsed dict is empty), the price fetch does not return an
empty result — it raises: line 162's
`asyncio.run(self._get_individual_prices())` executes under the
already-running event loop and raises `RuntimeError` before any per-asset
fetch happens, so the cycle body aborts with that error at its very first
step, firing no individual alert and no summary and changing no bot state.
(`monitor_prices`' `except`, `main.py` lines 483-487, then logs the error
and attempts a best-effort error notification — which is not an alert.) -/
theorem all_sources_fail_behavior
    (bulkResults : List (Option (List (String × ℚ))))
    (hfail : ∀ r ∈ bulkResults, r = none ∨ r = some [])
    (fetch : String → FetchOutcome) (st : BotState)
    (statsResults : List (Option (List (String × Stats))))
    (tokenSet chatSet : Bool) (postOk : ℕ → Bool) :
    getCryptoPricesBulk bulkResults fetch = .error .runtimeError ∧
    monitorPricesCore st bulkResults fetch statsResults tokenSet chatSet postOk =
      .error .runtimeError := by
  have hbulk : ∀ (L : List (Option (List (String × ℚ)))),
      (∀ r ∈ L, r = none ∨ r = some []) →
      getCryptoPricesBulk L fetch = .error .runtimeError := by
    intro L
    induction L with
    | nil => intro _; rfl
    | cons r rest ih =>
      intro hL
      rcases hL r (List.mem_cons_self r rest) with h | h <;> subst h <;>
        exact ih (fun x hx => hL x (List.mem_cons_of_mem _ hx))
  refine ⟨hbulk bulkResults hfail, ?_⟩
  simp only [monitorPricesCore, hbulk bulkResults hfail]

/-- Witness for C4's amended claim: the two configured bulk sources failing
(one raising, one parsing empty) make the fetch and the cycle body abort
with `RuntimeError`. -/
theorem all_sources_fail_behavior_witness :
    getCryptoPricesBulk [none, some []] (fun _ => .missing) = .error .runtimeError ∧
    monitorPricesCore initialState [none, some []] (fun _ => .missing) []
      true true (fun _ => true) = .error .runtimeError :=
  all_sources_fail_behavior [none, some []] (by decide) (fun _ => .missing)
    initialState [] true true (fun _ => true)

/-- Counterexample to claim C4 as stated: with every source erroring, the
price fetch RAISES (the `RuntimeError` of calling `asyncio.run` under the
running event loop) instead of returning an empty result, and the cycle
does not reach its "no data, skip" branch: it aborts into the error path.
Moreover even the `_get_individual_prices` coroutine itself, were it ever
run, would return the non-empty all-`None` mapping, not an empty one. -/
theorem all_sources_fail_counterexample :
    getCryptoPricesBulk [none, none] (fun _ => .err) = .error .runtimeError ∧
    getIndividualPrices (fun _ => .err) ≠ [] ∧
    monitorPricesCore initialState [none, none] (fun _ => .err) [none, none]
      true true (fun _ => true) = .error .runtimeError :=
  ⟨rfl, by decide, rfl⟩

/-! ### Message formatters

The two formatters are embedded over `List Char` (the character sequence of
the Python string), with the clock inputs passed as already-rendered
character sequences: `t` stands for `datetime.now().strftime('%Y-%m-%d
%H:%M:%S')` and `u` for `str(datetime.now() - self.start_time)`. Numeric
interpolations (`:,.4f`, `:.2f`, `:+,.4f`, `:,.0f`) are rendered by `pyFmt`
over exact rationals (`round` in place of the float's round-to-even tie
rule, which differs only on exact half-way values). -/

/-- The character sequence of a Python string. -/
abbrev Chars := List Char

/-- The whitespace class Python's `str.strip()` removes. -/
def isPySpace (c : Char) : Bool :=
  c == ' ' || c == '\t' || c == '\n' || c == '\r' || c == '\x0b' || c == '\x0c'

/-- Python `str.strip()`: drop whitespace from both ends. -/
def listStrip (l : Chars) : Chars :=
  ((l.dropWhile isPySpace).reverse.dropWhile isPySpace).reverse

/-- Last character of `l`, or `d` when `l` is empty. -/
def lastD (l : Chars) (d : Char) : Char := l.reverse.headD d

theorem dropWhile_append_of_all (p : Char → Bool) (l₁ l₂ : Chars)
    (h : ∀ c ∈ l₁, p c = true) : (l₁ ++ l₂).dropWhile p = l₂.dropWhile p := by
  induction l₁ with
  | nil => rfl
  | cons c rest ih =>
    simp only [List.cons_append, List.dropWhile, h c (List.mem_cons_self c rest)]
    exact ih (fun x hx => h x (List.mem_cons_of_mem c hx))

theorem dropWhile_cons_of_false (p : Char → Bool) (c : Char) (l : Chars)
    (h : p c = false) : (c :: l).dropWhile p = c :: l := by
  simp [List.dropWhile, h]

theorem lastD_append (a b : Chars) (d : Char) (hb : b ≠ []) :
    lastD (a ++ b) d = lastD b d := by
  unfold lastD
  rw [List.reverse_append]
  cases hb' : b.reverse with
  | nil => exact absurd (by simpa using congrArg List.reverse hb') hb
  | cons c r => simp [hb']

/-- `str.strip()` of a string that is all-whitespace `pre`, then a core
whose first and last characters are not whitespace, then all-whitespace
`post`, is exactly the core. -/
theorem listStrip_sandwich (pre core post : Chars)
    (hpre : ∀ c ∈ pre, isPySpace c = true)
    (hpost : ∀ c ∈ post, isPySpace c = true)
    (hhead : isPySpace (core.headD ' ') = false)
    (hlast : isPySpace (lastD core ' ') = false) :
    listStrip (pre ++ core ++ post) = core := by
  have hcne : core ≠ [] := by
    intro hc
    rw [hc] at hhead
    exact absurd hhead (by simp [isPySpace])
  obtain ⟨c, tl, rfl⟩ : ∃ c tl, core = c :: tl := by
    cases core with
    | nil => exact absurd rfl hcne
    | cons c tl => exact ⟨c, tl, rfl⟩
  have hc : isPySpace c = false := by simpa [List.headD] using hhead
  unfold listStrip
  rw [List.append_assoc, dropWhile_append_of_all isPySpace pre _ hpre]
  rw [show ((c :: tl) ++ post : Chars) = c :: (tl ++ post) from rfl]
  rw [dropWhile_cons_of_false isPySpace c _ hc]
  rw [show (c :: (tl ++ post) : Chars) = (c :: tl) ++ post from rfl, List.reverse_append]
  rw [dropWhile_append_of_all isPySpace post.reverse _
    (fun x hx => hpost x (List.mem_reverse.mp hx))]
  have hrevne : (c :: tl : Chars).reverse ≠ [] := by simp
  obtain ⟨e, es, he⟩ : ∃ e es, (c :: tl : Chars).reverse = e :: es := by
    cases hrev' : (c :: tl : Chars).reverse with
    | nil => exact absurd hrev' hrevne
    | cons e es => exact ⟨e, es, rfl⟩
  have hlast' : isPySpace e = false := by
    have hl : lastD (c :: tl) ' ' = e := by
      unfold lastD
      rw [he]
      rfl
    rwa [hl] at hlast
  rw [he, dropWhile_cons_of_false isPySpace e es hlast', ← he, List.reverse_reverse]

/-- Decimal digits of a natural number. -/
def natDigits (n : ℕ) : Chars := (Nat.repr n).data

/-- Insert a comma after every third character of an (already reversed)
digit sequence. -/
def group3 : Chars → Chars
  | a :: b :: c :: d :: rest => a :: b :: c :: ',' :: group3 (d :: rest)
  | l => l

/-- Python's `,` thousands grouping of an integer-part digit sequence. -/
def withCommas (s : Chars) : Chars := (group3 s.reverse).reverse

/-- Python fixed-point float formatting `format(q, '[+][,].df')`: optional
forced sign, optional thousands grouping, `d` digits after the point
(none when `d = 0`). -/
def pyFmt (plusSign comma : Bool) (d : ℕ) (q : ℚ) : Chars :=
  let scaled : ℤ := round (q * (10 ^ d : ℚ))
  let sgn : Chars := if scaled < 0 then ['-'] else if plusSign then ['+'] else []
  let m : ℕ := scaled.natAbs
  let ipart := natDigits (m / 10 ^ d)
  let ip := if comma then withCommas ipart else ipart
  let fdigits := natDigits (m % 10 ^ d)
  let fp : Chars :=
    if d = 0 then [] else '.' :: (List.replicate (d - fdigits.length) '0' ++ fdigits)
  sgn ++ ip ++ fp

/-- The direction indicator of both formatters (`main.py` lines 357, 395):
up for positive `price_change`, down for negative, flat otherwise. -/
def changeEmoji (priceChange : ℚ) : Chars :=
  if 0 < priceChange then "📈".data
  else if priceChange < 0 then "📉".data
  else "➖".data

/-- The body of the `format_single_currency_message` template
(`main.py` lines 366-378) up to the time interpolation: the pieces
concatenate to the f-string literal with its interpolations filled in.
The `stats.get(..., default)` calls read this record's fields, which are
always present in the shapes the stats parsers and fallback produce. -/
def singleBody (config : CurrencyConfig) (sym : String) (price : ℚ) (stats : Stats) :
    Chars :=
  "🚨 <b>".data ++ config.emoji.data ++ " ".data ++ config.name.data ++ " (".data
    ++ sym.data ++ ") Alert</b>\n\n💰 <b>Current Price:</b> $".data
    ++ pyFmt false true 4 price
    ++ "\n".data ++ changeEmoji stats.priceChange
    ++ " <b>24h Change:</b> ".data ++ pyFmt false false 2 stats.priceChangePercent
    ++ "% ($".data ++ pyFmt true true 4 stats.priceChange
    ++ ")\n\n📊 <b>24h Stats:</b>\n• <b>High:</b> $".data ++ pyFmt false true 4 stats.high
    ++ "\n• <b>Low:</b> $".data ++ pyFmt false true 4 stats.low
    ++ "\n• <b>Volume:</b> $".data ++ pyFmt false true 0 stats.volume
    ++ "\n\n⏰ <b>Time:</b> ".data

/-- `format_single_currency_message(self, symbol, price, stats)`
(`main.py` lines 354-380): `self.currencies[symbol]` raises `KeyError` for
an untracked symbol; otherwise the filled template is `.strip()`-ed. `t` is
the rendered timestamp. -/
def formatSingleCurrencyMessage (sym : String) (price : ℚ) (stats : Stats) (t : Chars) :
    Except PyError Chars :=
  match lookupCurrency sym with
  | none => .error .keyError
  | some config =>
    .ok (listStrip ("\n".data ++ (singleBody config sym price stats ++ t ++ " UTC".data)
      ++ "\n        ".data))

/-- One per-symbol line of the multi-currency summary
(`main.py` lines 399-400). -/
def multiLineFor (config : CurrencyConfig) (sym : String) (price : ℚ)
    (symbolStats : Stats) : Chars :=
  "\n".data ++ config.emoji.data ++ " <b>".data ++ sym.data ++ "</b>: $".data
    ++ pyFmt false true 4 price ++ " ".data ++ changeEmoji symbolStats.priceChange
    ++ " ".data ++ pyFmt true false 2 symbolStats.priceChangePercent ++ "%".data

/-- The per-symbol loop of `format_multi_currency_summary`
(`main.py` lines 389-400): `None` prices are skipped, missing stats fall
back to the zero-valued record, and `self.currencies[symbol]` raises
`KeyError` for an untracked symbol. -/
def multiLines (prices : List (String × Option ℚ)) (stats : List (String × Stats)) :
    Except PyError Chars :=
  match prices with
  | [] => .ok []
  | (_, none) :: rest => multiLines rest stats
  | (sym, some price) :: rest =>
    match lookupCurrency sym with
    | none => .error .keyError
    | some config =>
      match multiLines rest stats with
      | .error e => .error e
      | .ok r =>
        .ok (multiLineFor config sym price ((dictGet stats sym).getD fallbackStats) ++ r)

/-- The header of the multi-currency summary after the leading newline
(`main.py` lines 384-387). -/
def multiHeader : Chars := "📊 <b>Multi-Currency Price Summary</b>\n\n".data

/-- The footer of the multi-currency summary up to the time interpolation
(`main.py` lines 402-405). -/
def multiTimePre : Chars := "\n\n\n⏰ <b>Time:</b> ".data

/-- The footer between the time and the uptime interpolations
(`main.py` lines 405-406). -/
def multiMid : Chars := " UTC\n🤖 <b>Bot uptime:</b> ".data

/-- `format_multi_currency_summary(self, prices, stats)`
(`main.py` lines 382-409): header, per-symbol lines, footer with the
rendered timestamp `t` and rendered uptime `u`, then `.strip()`. -/
def formatMultiCurrencySummary (prices : List (String × Option ℚ))
    (stats : List (String × Stats)) (t u : Chars) : Except PyError Chars :=
  match multiLines prices stats with
  | .error e => .error e
  | .ok lines =>
    .ok (listStrip ("\n".data
      ++ (multiHeader ++ lines ++ multiTimePre ++ t ++ multiMid ++ u)
      ++ "\n        ".data))

/-- Claim C9: both formatters are deterministic up to the clock. Each
output decomposes as fixed text determined solely by the (price, stats)
inputs, with the rendered clock readings spliced into fixed slots: the
single-currency alert is its body ++ timestamp ++ " UTC", and the
multi-currency summary is header ++ per-symbol lines ++ fixed text ++
timestamp ++ fixed text ++ uptime (the uptime, `datetime.now() -
start_time`, is the summary's second clock-derived segment; a rendered
uptime never ends in whitespace, which the hypothesis records). Hence
formatting the same input pair twice yields byte-identical output except
in those clock slots. -/
theorem formatters_clock_decomposition :
    (∀ (sym : String) (config : CurrencyConfig) (price : ℚ) (stats : Stats) (t : Chars),
      lookupCurrency sym = some config →
      formatSingleCurrencyMessage sym price stats t =
        .ok (singleBody config sym price stats ++ t ++ (" UTC").data)) ∧
    (∀ (prices : List (String × Option ℚ)) (stats : List (String × Stats)) (t u : Chars),
      isPySpace (lastD u ' ') = false →
      formatMultiCurrencySummary prices stats t u =
        (multiLines prices stats).map
          (fun lines => multiHeader ++ lines ++ multiTimePre ++ t ++ multiMid ++ u)) := by
  constructor
  · intro sym config price stats t hcfg
    unfold formatSingleCurrencyMessage
    rw [hcfg]
    refine congrArg Except.ok ?_
    refine listStrip_sandwich _ _ _ (by decide) (by decide) ?_ ?_
    · unfold singleBody
      rw [show ("🚨 <b>").data = '🚨' :: (" <b>").data from rfl]
      simp only [List.cons_append, List.headD]
      decide
    · rw [lastD_append _ ((" UTC").data) _ (by decide)]
      decide
  · intro prices stats t u hu
    have hune : u ≠ [] := by
      intro hc
      rw [hc] at hu
      exact absurd hu (by decide)
    unfold formatMultiCurrencySummary
    cases hml : multiLines prices stats with
    | error e => rfl
    | ok lines =>
      simp only [Except.map]
      refine congrArg Except.ok ?_
      refine listStrip_sandwich _ _ _ (by decide) (by decide) ?_ ?_
      · unfold multiHeader
        rw [show ("📊 <b>Multi-Currency Price Summary</b>\n\n").data =
          '📊' :: (" <b>Multi-Currency Price Summary</b>\n\n").data from rfl]
        simp only [List.cons_append, List.headD]
        decide
      · rw [lastD_append _ u _ hune]
        exact hu

/-- Witness for C9: the decompositions at a concrete symbol, price, stats,
timestamp and uptime. -/
theorem formatters_clock_decomposition_witness :
    formatSingleCurrencyMessage "BTC" 100 fallbackStats ("2026-10-12 00:00:00").data =
      .ok (singleBody ⟨"Bitcoin", "BTC", "bitcoin", "BTCUSDT", "🟠", 1⟩ "BTC" 100
        fallbackStats ++ ("2026-10-12 00:00:00").data ++ (" UTC").data) ∧
    formatMultiCurrencySummary [("BTC", some 100)] [] ("2026-10-12 00:00:00").data
        ("1:23:45").data =
      (multiLines [("BTC", some 100)] []).map
        (fun lines => multiHeader ++ lines ++ multiTimePre ++ ("2026-10-12 00:00:00").data
          ++ multiMid ++ ("1:23:45").data) :=
  ⟨formatters_clock_decomposition.1 "BTC" ⟨"Bitcoin", "BTC", "bitcoin", "BTCUSDT", "🟠", 1⟩
      100 fallbackStats ("2026-10-12 00:00:00").data rfl,
   formatters_clock_decomposition.2 [("BTC", some 100)] [] ("2026-10-12 00:00:00").data
      ("1:23:45").data (by decide)⟩

end BinanceBot
